import Mathlib

/-!
Verification of the polyclaw position-lifecycle saga against its source.

The Python source (src/lib/position_storage.py, src/lib/clob_client.py,
src/scripts/trade.py, src/scripts/redeem.py) is shallowly embedded below:
pure computations become Lean functions, the backing file of the position store
becomes an explicit state acted on by a step list (a crash is running only
a prefix of the steps), and every external collaborator (chain RPC, market
info provider, order book) becomes an explicit parameter recording the
outcome of each call.

Python numbers are modelled by the exact rational value they denote, using
an executable fraction type `QF` (every operation is structurally
recursive, so all theorems below are checkable by kernel evaluation).
Python floats are IEEE-754 binary64 values; arithmetic on them is modelled
by exact rational arithmetic followed by correct rounding to 53 bits of
precision (round to nearest, ties to even) via `toF64q`, with unbounded
exponent range, which is exact for every magnitude this program
manipulates (prices in cents, USDC amounts with 6 decimals).
-/

set_option maxRecDepth 4000

namespace Polyclaw

/-! ## Executable exact rationals -/

/-- An executable rational number: `num / den` with `den` kept positive by
all constructions below.  Values built by `QF.norm` are in lowest terms,
so structural equality of normalised values is semantic equality. -/
structure QF where
  num : ℤ
  den : ℤ
  deriving DecidableEq, Repr

/-- The algorithm of Euclid by fuelled structural recursion (256 steps cover
all inputs below 2 ^ 350, far beyond anything this program produces). -/
def qgcd : Nat → Nat → Nat → Nat
  | 0, a, _ => a
  | fuel+1, a, b => if b = 0 then a else qgcd fuel b (a % b)

/-- Normalise a fraction: make the denominator positive and divide out the
greatest common divisor. -/
def QF.norm (n d : ℤ) : QF :=
  if d = 0 then ⟨0, 1⟩
  else
    let n' : ℤ := if d < 0 then -n else n
    let d' : ℤ := if d < 0 then -d else d
    let g : ℤ := (qgcd 256 n'.natAbs d'.natAbs : ℕ)
    if g = 0 then ⟨0, 1⟩ else ⟨n' / g, d' / g⟩

/-- The rational denoted by `n / d` (a convenient normalising constructor). -/
def qf (n d : ℤ) : QF := QF.norm n d

def QF.ofInt (n : ℤ) : QF := ⟨n, 1⟩

def QF.mul (a b : QF) : QF := QF.norm (a.num * b.num) (a.den * b.den)

def QF.div (a b : QF) : QF := QF.norm (a.num * b.den) (a.den * b.num)

def QF.add (a b : QF) : QF := QF.norm (a.num * b.den + b.num * a.den) (a.den * b.den)

def QF.sub (a b : QF) : QF := QF.norm (a.num * b.den - b.num * a.den) (a.den * b.den)

def QF.neg (a : QF) : QF := ⟨-a.num, a.den⟩

/-- Comparison `a < b` (denominators are positive by construction). -/
def QF.blt (a b : QF) : Bool := a.num * b.den < b.num * a.den

/-- Comparison `a ≤ b` (denominators are positive by construction). -/
def QF.ble (a b : QF) : Bool := a.num * b.den ≤ b.num * a.den

/-- Python `max` on two numbers. -/
def QF.pymax (a b : QF) : QF := if QF.blt a b then b else a

/-- Floor of a fraction with positive denominator. -/
def QF.floor (a : QF) : ℤ := Int.fdiv a.num a.den

/-- Round to the nearest integer, ties to even (the IEEE-754 default
rounding, also used by the CPython float formatting and round builtin). -/
def roundHalfEvenQF (q : QF) : ℤ :=
  let f : ℤ := q.floor
  let r : ℤ := q.num - f * q.den
  if 2 * r < q.den then f
  else if q.den < 2 * r then f + 1
  else if f % 2 = 0 then f else f + 1

/-! ## IEEE-754 binary64 model (Python floats) -/

/-- Base-2 logarithm on naturals by fuelled structural recursion
(kernel-reducible, unlike well-founded definitions). -/
def log2fuel : Nat → Nat → Nat
  | 0, _ => 0
  | fuel+1, n => if n ≤ 1 then 0 else log2fuel fuel (n / 2) + 1

/-- The fraction 2 ^ e for an integer e. -/
def pow2QF (e : ℤ) : QF :=
  if 0 ≤ e then ⟨(2 : ℤ) ^ e.toNat, 1⟩ else ⟨1, (2 : ℤ) ^ (-e).toNat⟩

/-- Floor of the base-2 logarithm of a positive fraction. -/
def floorLog2QF (q : QF) : ℤ :=
  let a : ℤ := log2fuel 256 q.num.natAbs
  let b : ℤ := log2fuel 256 q.den.natAbs
  let e0 : ℤ := a - b
  if (pow2QF (e0+1)).ble q then e0 + 1
  else if (pow2QF e0).ble q then e0
  else e0 - 1

/-- The exact value of the IEEE-754 binary64 nearest to `q` (round to
nearest, ties to even), with unbounded exponent range: no overflow or
subnormal modelling, which is exact for the magnitudes this program
manipulates. -/
def toF64q (q : QF) : QF :=
  if q.num = 0 then ⟨0, 1⟩
  else
    let a : QF := if q.num < 0 then q.neg else q
    let e : ℤ := floorLog2QF a - 52
    let m : ℤ := roundHalfEvenQF (a.div (pow2QF e))
    let v : QF := (QF.ofInt m).mul (pow2QF e)
    if q.num < 0 then v.neg else v

/-- IEEE multiplication of two doubles (correctly rounded). -/
def fmulq (a b : QF) : QF := toF64q (a.mul b)

/-- IEEE division of two doubles (correctly rounded). -/
def fdivq (a b : QF) : QF := toF64q (a.div b)

/-- The double a Python int converts to. -/
def intToF64 (n : ℤ) : QF := toF64q (QF.ofInt n)

/-- CPython `round(x, 2)` on a float: decimal rounding (ties to even) of
the exact value of the double, converted back to the nearest double. -/
def pyRound2 (x : QF) : QF :=
  toF64q (qf (roundHalfEvenQF (x.mul (QF.ofInt 100))) 100)

/-- The double denoted by the Python literal `0.90`. -/
def lit090 : QF := toF64q (qf 9 10)

/-- The double denoted by the Python literal `0.01`. -/
def lit001 : QF := toF64q (qf 1 100)

-- Sanity checks of the float model against observed CPython values.
example : toF64q (qf 35 100) = ⟨3152519739159347, 9007199254740992⟩ := by decide
example : lit090 = ⟨8106479329266893, 9007199254740992⟩ := by decide
example : lit001 = ⟨5764607523034235, 576460752303423488⟩ := by decide
example : fmulq (toF64q (qf 35 100)) lit090 = ⟨5674535530486825, 18014398509481984⟩ := by
  decide
example : pyRound2 (fmulq (toF64q (qf 35 100)) lit090) = toF64q (qf 32 100) := by decide
example : toF64q (qf 32 100) = ⟨5764607523034235, 18014398509481984⟩ := by decide
example : pyRound2 (toF64q (qf 345 1000)) = toF64q (qf 34 100) := by decide
example : fdivq (intToF64 50000000) (intToF64 1000000) = ⟨50, 1⟩ := by decide
example : toF64q (qf 1234567 1000000) = ⟨5559995481163911, 4503599627370496⟩ := by decide

/-! ## Position store (src/lib/position_storage.py)

`PositionEntry` mirrors the dataclass of the same name; the stored JSON
document is a list of such entries (the dicts written by `asdict` carry
exactly these fields). -/

structure PositionEntry where
  position_id : String
  market_id : String
  question : String
  position : String
  token_id : String
  entry_time : String
  entry_amount : QF
  entry_price : QF
  split_tx : String
  clob_order_id : Option String := none
  clob_filled : Bool := false
  status : String := "open"
  notes : Option String := none
  deriving DecidableEq, Repr

/-- Model of `PositionStorage.update_status`, acting on the loaded collection: set
the status of the first entry with the given id.  Returns `none` when no
entry matches (the Python method then returns False without saving). -/
def updateStatusList : List PositionEntry → String → String → Option (List PositionEntry)
  | [], _, _ => none
  | p :: rest, pid, st =>
    if p.position_id = pid then some ({ p with status := st } :: rest)
    else (updateStatusList rest pid st).map (p :: ·)

/-- Model of `PositionStorage.update_notes`, acting on the loaded collection. -/
def updateNotesList : List PositionEntry → String → String → Option (List PositionEntry)
  | [], _, _ => none
  | p :: rest, pid, notes =>
    if p.position_id = pid then some ({ p with notes := some notes } :: rest)
    else (updateNotesList rest pid notes).map (p :: ·)

/-- The four mutating operations of the position store. -/
inductive StoreOp
  | add (e : PositionEntry)
  | updateStatus (pid st : String)
  | updateNotes (pid notes : String)
  | del (pid : String)

/-- The in-memory effect of a store mutation on the loaded collection,
mirroring `add` / `update_status` / `update_notes` / `delete`: the new
collection and the boolean the Python method returns (for `add`, which
returns None, the flag records that a save always happens). -/
def applyStoreOp : StoreOp → List PositionEntry → List PositionEntry × Bool
  | .add e, positions => (positions ++ [e], true)
  | .updateStatus pid st, positions =>
    match updateStatusList positions pid st with
    | some positions' => (positions', true)
    | none => (positions, false)
  | .updateNotes pid notes, positions =>
    match updateNotesList positions pid notes with
    | some positions' => (positions', true)
    | none => (positions, false)
  | .del pid, positions =>
    let filtered := positions.filter (fun p => p.position_id ≠ pid)
    if filtered.length < positions.length then (filtered, true) else (positions, false)

/-- The file system state seen by the store: the backing file and the
temporary file, each either absent or holding a serialised collection
(serialisation is injective, so contents are modelled by the parsed
document itself). -/
structure FsState where
  mainFile : Option (List PositionEntry)
  tempFile : Option (List PositionEntry)
  deriving DecidableEq, Repr

/-- The primitive file-system steps `save_all` performs: write the whole
document to the temporary path, then atomically rename it over the
backing file (`temp.replace(self.path)`). -/
inductive FsStep
  | writeTemp (doc : List PositionEntry)
  | renameTempToMain
  deriving DecidableEq, Repr

def applyFsStep (s : FsState) : FsStep → FsState
  | .writeTemp doc => { s with tempFile := some doc }
  | .renameTempToMain => { mainFile := s.tempFile, tempFile := none }

def applyFsSteps (s : FsState) (steps : List FsStep) : FsState :=
  steps.foldl applyFsStep s

/-- Model of `PositionStorage.load_all`: a missing (or, in the source, corrupt)
backing file reads as the empty collection. -/
def load_all (s : FsState) : List PositionEntry :=
  s.mainFile.getD []

/-- Model of `PositionStorage.save_all`: atomic write = write temp, then rename. -/
def save_all_steps (doc : List PositionEntry) : List FsStep :=
  [.writeTemp doc, .renameTempToMain]

/-- The file-system steps a store mutation performs on top of the loaded
collection: every mutating method saves the whole new collection via
`save_all` exactly when it reports success, and performs no write at all
otherwise. -/
def storeOpSteps (op : StoreOp) (positions : List PositionEntry) : List FsStep :=
  match applyStoreOp op positions with
  | (positions', true) => save_all_steps positions'
  | (_, false) => []

/-- A sample position record, used to instantiate hypotheses at concrete
inputs. -/
def samplePos : PositionEntry :=
  { position_id := "11111111-1111-1111-1111-111111111111"
    market_id := "516861"
    question := "Sample market?"
    position := "YES"
    token_id := "702"
    entry_time := "2024-06-01T00:00:00+00:00"
    entry_amount := ⟨50, 1⟩
    entry_price := toF64q (qf 65 100)
    split_tx := "0xAAA" }

/-! ## Order-book sell client (src/lib/clob_client.py) -/

/-- Model of `CLOB_MAX_RETRIES = int(os.environ.get("CLOB_MAX_RETRIES", "5"))`:
the retry bound, as a function of the optional environment override. -/
def clobMaxRetries (env : Option ℤ) : ℤ := env.getD 5

/-- A Python exception escaping `sell_fok` itself (as opposed to the
exceptions of the order-book calls, which `sell_fok` catches and carries
as strings). -/
inductive PyErr
  | typeErrorNoneNotIterable
  deriving Repr

/-- The Python substring test `needle in hay` on the underlying characters. -/
def charsContain (needle : List Char) : List Char → Bool
  | [] => needle.isEmpty
  | d :: ds => needle.isPrefixOf (d :: ds) || charsContain needle ds

/-- The Python membership test `needle in hay` for strings. -/
def strContains (hay needle : String) : Bool :=
  charsContain needle.data hay.data

def charLower (c : Char) : Char :=
  if 65 ≤ c.toNat ∧ c.toNat ≤ 90 then Char.ofNat (c.toNat + 32) else c

/-- The Python `str.lower` (on the ASCII error texts this program
inspects). -/
def pyLower (s : String) : String := String.mk (s.data.map charLower)

/-- Model of `ClobClientWrapper._is_cloudflare_block`: a 403 marker together with a
cloudflare/blocked marker in the lowercased error text. -/
def is_cloudflare_block (error_msg : String) : Bool :=
  strContains error_msg "403" &&
    (strContains (pyLower error_msg) "cloudflare" || strContains (pyLower error_msg) "blocked")

/-- Decimal digit as a string. -/
def digitStr (n : Nat) : String :=
  match n with
  | 0 => "0" | 1 => "1" | 2 => "2" | 3 => "3" | 4 => "4"
  | 5 => "5" | 6 => "6" | 7 => "7" | 8 => "8" | _ => "9"

def natStrAux : Nat → Nat → String
  | 0, _ => ""
  | fuel+1, n => if n = 0 then "" else natStrAux fuel (n / 10) ++ digitStr (n % 10)

/-- Decimal rendering of a natural number (fuelled, kernel-reducible). -/
def natStr (n : Nat) : String := if n = 0 then "0" else natStrAux 64 n

def intStr (i : ℤ) : String := if i < 0 then "-" ++ natStr i.natAbs else natStr i.natAbs

/-- Python float formatting with two decimals, as in `f"{x:.2f}"`. -/
def format2 (q : QF) : String :=
  let c : ℤ := roundHalfEvenQF (q.mul (QF.ofInt 100))
  intStr (c / 100) ++ "." ++ (if c % 100 < 10 then "0" else "") ++ natStr (c % 100).natAbs

/-- The limit price `sell_fok` computes:
`sell_price = round(max(price * 0.90, 0.01), 2)` in float arithmetic. -/
def sellFokPrice (price : QF) : QF :=
  pyRound2 (QF.pymax (fmulq price lit090) lit001)

/-- One executed iteration of the `sell_fok` attempt loop: its index, whether a
fresh HTTP transport was constructed at its start (`_refresh_http_client`
builds exactly one `httpx.Client`, and only when a proxy is configured),
and the outcome of the create-and-post-order call (an order id, or the
text of the exception it raised). -/
instance {ε α : Type} [DecidableEq ε] [DecidableEq α] : DecidableEq (Except ε α) :=
  fun a b =>
    match a, b with
    | .ok x, .ok y =>
      if h : x = y then isTrue (by rw [h]) else isFalse (fun hh => by cases hh; exact h rfl)
    | .ok _, .error _ => isFalse (fun hh => by cases hh)
    | .error _, .ok _ => isFalse (fun hh => by cases hh)
    | .error x, .error y =>
      if h : x = y then isTrue (by rw [h]) else isFalse (fun hh => by cases hh; exact h rfl)

structure AttemptRec where
  idx : Nat
  refreshed : Bool
  outcome : Except String String
  deriving DecidableEq

/-- How the `sell_fok` attempt loop ended. -/
inductive LoopExit
  | success (orderId : String)
  | failure (lastError : Option String)
  deriving DecidableEq

/-- The attempt loop of `sell_fok` (lines 110-138): fuel counts the
remaining iterations of `range(CLOB_MAX_RETRIES)`, `i` is the attempt
index, and the `Option String` is the current `last_error`.  Returns how
the loop exited together with the trace of executed attempts. -/
def sellFokLoop (att : Nat → Except String String) (proxy : Bool) :
    Nat → Nat → Option String → LoopExit × List AttemptRec
  | 0, _, lastError => (.failure lastError, [])
  | fuel+1, i, _ =>
    let refreshed := decide (0 < i) && proxy
    match att i with
    | .ok oid => (.success oid, [⟨i, refreshed, .ok oid⟩])
    | .error e =>
      cond (is_cloudflare_block e && proxy)
        (let rest := sellFokLoop att proxy fuel (i+1) (some e)
         (rest.1, ⟨i, refreshed, .error e⟩ :: rest.2))
        (.failure (some e), [⟨i, refreshed, .error e⟩])

/-- The whole attempt loop of one `sell_fok` call. -/
def sellFokRun (att : Nat → Except String String) (proxy : Bool) (maxRetries : ℤ) :
    LoopExit × List AttemptRec :=
  sellFokLoop att proxy maxRetries.toNat 0 none

/-- The fixed Cloudflare-block advisory (lines 142-145). -/
def cloudflareBlockMsg : String :=
  "IP blocked by Cloudflare. Your split succeeded - you have the tokens. Sell manually at polymarket.com or try with HTTPS_PROXY env var."

/-- The post-loop error translation (lines 140-151).  With no executed
attempt, `last_error` is still `None` and line 141 runs the substring test
`403 in None`, raising `TypeError` past `sell_fok`. -/
def sellFokFinish (sell_price : QF) :
    Option String → Except PyErr (Option String × Bool × Option String)
  | none => .error .typeErrorNoneNotIterable
  | some last_error =>
    let error_msg :=
      if is_cloudflare_block last_error then cloudflareBlockMsg
      else if strContains (pyLower last_error) "no match" ||
          strContains (pyLower last_error) "insufficient" then
        "No liquidity at $" ++ format2 sell_price ++ " - tokens kept, sell manually"
      else last_error
    .ok (none, false, some error_msg)

/-- Model of `ClobClientWrapper.sell_fok`.  The environment is explicit: `att i` is
the outcome of the create-and-post-order call on attempt `i`, `proxy`
records whether `HTTPS_PROXY`/`HTTP_PROXY` is set, and `maxRetries` is the
`CLOB_MAX_RETRIES` value.  Returns the `(order_id, filled, error)` triple,
or the Python exception that escapes the call. -/
def sell_fok (att : Nat → Except String String) (proxy : Bool) (maxRetries : ℤ)
    (price : QF) : Except PyErr (Option String × Bool × Option String) :=
  let sell_price := sellFokPrice price
  match (sellFokRun att proxy maxRetries).1 with
  | .success oid => .ok (some oid, true, none)
  | .failure lastError => sellFokFinish sell_price lastError

/-! ## Trade saga (src/scripts/trade.py) -/

def charUpper (c : Char) : Char :=
  if 97 ≤ c.toNat ∧ c.toNat ≤ 122 then Char.ofNat (c.toNat - 32) else c

/-- The Python `str.upper` (on the ASCII side names this program uses). -/
def pyUpper (s : String) : String := String.mk (s.data.map charUpper)

/-- The market-info record.  Its shape follows the fields the sources read
from the `GammaClient.get_market` result (`resolved`, `outcome`,
`condition_id`, the two token ids, the two prices, `question`), matching
the Market Info Provider interface of the spec; the provider itself
(`lib/gamma_client.py`) is an external collaborator whose calls are
modelled by explicit outcome parameters. -/
structure Market where
  resolved : Bool
  outcome : Option String
  condition_id : String
  yes_token_id : String
  no_token_id : String
  yes_price : QF
  no_price : QF
  question : String
  deriving DecidableEq, Repr

/-- The Python message of the `TypeError` modelled by `PyErr`. -/
def pyErrStr : PyErr → String
  | .typeErrorNoneNotIterable => "argument of type \x27NoneType\x27 is not iterable"

/-- Mirror of `TradeResult` of src/scripts/trade.py. -/
structure TradeResult where
  success : Bool
  market_id : String
  position : String
  amount : QF
  split_tx : Option String
  clob_order_id : Option String
  clob_filled : Bool
  error : Option String := none
  question : String := ""
  wanted_token_id : String := ""
  entry_price : QF := ⟨0, 1⟩
  deriving DecidableEq, Repr

/-- Model of `TradeExecutor.buy_position`.  External calls are explicit outcome
parameters: `walletUnlocked` and `usdc_e` are the wallet state,
`getMarket` the outcome of `GammaClient.get_market`, `split` the outcome
of `_split_position` (the confirmed transaction hash, or the text of the
exception it raised), and `att`/`proxy`/`maxRetries` the environment of
the `sell_fok` call on the unwanted side. -/
def buy_position (market_id position0 : String) (amount : QF) (skip_clob_sell : Bool)
    (walletUnlocked : Bool) (usdc_e : QF) (getMarket : Except String Market)
    (split : Except String String) (att : Nat → Except String String) (proxy : Bool)
    (maxRetries : ℤ) : TradeResult :=
  let position := pyUpper position0
  if ¬(position = "YES" ∨ position = "NO") then
    { success := false, market_id := market_id, position := position, amount := amount,
      split_tx := none, clob_order_id := none, clob_filled := false,
      error := some "Position must be YES or NO" }
  else if ¬ walletUnlocked then
    { success := false, market_id := market_id, position := position, amount := amount,
      split_tx := none, clob_order_id := none, clob_filled := false,
      error := some "Wallet not unlocked" }
  else if QF.blt usdc_e amount then
    { success := false, market_id := market_id, position := position, amount := amount,
      split_tx := none, clob_order_id := none, clob_filled := false,
      error := some ("Insufficient USDC.e: have " ++ format2 usdc_e ++ ", need " ++
        format2 amount) }
  else
    match getMarket with
    | .error e =>
      { success := false, market_id := market_id, position := position, amount := amount,
        split_tx := none, clob_order_id := none, clob_filled := false,
        error := some ("Failed to fetch market: " ++ e) }
    | .ok market =>
      let wanted_token := if position = "YES" then market.yes_token_id else market.no_token_id
      let unwanted_token := if position = "YES" then market.no_token_id else market.yes_token_id
      let wanted_price := if position = "YES" then market.yes_price else market.no_price
      let unwanted_price := if position = "YES" then market.no_price else market.yes_price
      match split with
      | .error e =>
        { success := false, market_id := market_id, position := position, amount := amount,
          split_tx := none, clob_order_id := none, clob_filled := false,
          error := some ("Split failed: " ++ e) }
      | .ok split_tx =>
        let sellRes : Option String × Bool × Option String :=
          if ¬ skip_clob_sell ∧ unwanted_token ≠ "" then
            match sell_fok att proxy maxRetries unwanted_price with
            | .ok t => t
            | .error pe => (none, false, some (pyErrStr pe))
          else (none, false, none)
        { success := true, market_id := market_id, position := position, amount := amount,
          split_tx := some split_tx, clob_order_id := sellRes.1,
          clob_filled := sellRes.2.1, error := sellRes.2.2,
          question := market.question, wanted_token_id := wanted_token,
          entry_price := wanted_price }

/-- The record `cmd_buy` builds and persists for a successful trade
(trade.py lines 279-293); `newId` is the generated UUID and `entry_time`
the current UTC timestamp.  On the success path `result.split_tx` is
always set, so the default in `getD` is never used. -/
def mkPositionEntry (result : TradeResult) (newId entry_time : String) : PositionEntry :=
  { position_id := newId
    market_id := result.market_id
    question := result.question
    position := result.position
    token_id := result.wanted_token_id
    entry_time := entry_time
    entry_amount := result.amount
    entry_price := result.entry_price
    split_tx := result.split_tx.getD ""
    clob_order_id := result.clob_order_id
    clob_filled := result.clob_filled }

/-- The effect of `cmd_buy` on the stored collection: exactly one record
is added when the trade succeeded, none otherwise. -/
def cmd_buy_store (result : TradeResult) (positions : List PositionEntry)
    (newId entry_time : String) : List PositionEntry :=
  if result.success then
    (applyStoreOp (.add (mkPositionEntry result newId entry_time)) positions).1
  else positions

/-- Did the hedge sell fill?  (`sell_fok` returned with `filled=True`.) -/
def hedgeFilled : Except PyErr (Option String × Bool × Option String) → Bool
  | .ok (_, true, _) => true
  | _ => false

/-! ## Redemption saga (src/scripts/redeem.py) -/

/-- The double literal `1e6`. -/
def lit1e6 : QF := QF.ofInt 1000000

/-- A scan result item.  In the source these are dicts spreading `**pos`:
all fields of the stored position record spread together with the scan
classification fields.  Items discovered by the Data-API path carry only
the classification fields; their record fields keep the defaults. -/
structure ScanItem where
  position_id : String
  market_id : String
  question : String
  position : String
  token_id : String
  entry_time : String := ""
  entry_amount : QF := ⟨0, 1⟩
  entry_price : QF := ⟨0, 1⟩
  split_tx : String := ""
  clob_order_id : Option String := none
  clob_filled : Bool := false
  status : String := "open"
  notes : Option String := none
  market_outcome : String
  is_winner : Bool
  on_chain_balance : ℕ
  redeemable_usd : QF
  condition_id : Option String := none
  source : String
  deriving DecidableEq, Repr

/-- The item `scan_redeemable` emits for a losing resolved position
(lines 249-259): the position dict spread with `is_winner=False`,
zero balance and value, and no condition id. -/
def loserItem (pos : PositionEntry) (outcome : String) : ScanItem :=
  { position_id := pos.position_id, market_id := pos.market_id, question := pos.question
    position := pos.position, token_id := pos.token_id, entry_time := pos.entry_time
    entry_amount := pos.entry_amount, entry_price := pos.entry_price
    split_tx := pos.split_tx, clob_order_id := pos.clob_order_id
    clob_filled := pos.clob_filled, status := pos.status, notes := pos.notes
    market_outcome := outcome, is_winner := false, on_chain_balance := 0
    redeemable_usd := QF.ofInt 0, condition_id := none, source := "local" }

/-- The item `scan_redeemable` emits for a confirmed winner
(lines 274-284): the position dict spread with `is_winner=True`, the
on-chain balance, its `balance / 1e6` USD value, and the market condition
id. -/
def winnerItem (pos : PositionEntry) (market : Market) (outcome : String)
    (balance : ℕ) : ScanItem :=
  { position_id := pos.position_id, market_id := pos.market_id, question := pos.question
    position := pos.position, token_id := pos.token_id, entry_time := pos.entry_time
    entry_amount := pos.entry_amount, entry_price := pos.entry_price
    split_tx := pos.split_tx, clob_order_id := pos.clob_order_id
    clob_filled := pos.clob_filled, status := pos.status, notes := pos.notes
    market_outcome := outcome, is_winner := true, on_chain_balance := balance
    redeemable_usd := fdivq (intToF64 balance) lit1e6
    condition_id := some market.condition_id, source := "local" }

/-- The body of the per-position loop of `RedeemExecutor.scan_redeemable`
(lines 232-287).  Each external call is an explicit outcome parameter:
`getMarket` for `GammaClient.get_market`, `getBalance` for
`_get_token_balance` (the on-chain `balanceOf` read, or the text of the
exception it raised), `isCondResolved` for `_is_condition_resolved`
(which catches its own exceptions and returns a boolean).  A per-item
exception is caught, logged and the item skipped. -/
def processPos (getMarket : String → Except String Market)
    (getBalance : String → Except String ℕ) (isCondResolved : String → Bool)
    (pos : PositionEntry) : Option ScanItem :=
  match getMarket pos.market_id with
  | .error _ => none
  | .ok market =>
    if ¬ market.resolved then none
    else
      let outcome := pyUpper (market.outcome.getD "")
      let our_side := pyUpper pos.position
      let is_winner := (outcome = "YES" ∧ our_side = "YES") ∨
        (outcome = "NO" ∧ our_side = "NO")
      if ¬ is_winner then some (loserItem pos outcome)
      else if pos.token_id = "" then none
      else
        match getBalance pos.token_id with
        | .error _ => none
        | .ok balance =>
          if balance = 0 then none
          else if ¬ isCondResolved market.condition_id then none
          else some (winnerItem pos market outcome balance)

/-- Model of `RedeemExecutor.scan_redeemable`: iterate the open positions of the
local store, emitting at most one classified item per position. -/
def scan_redeemable (stored : List PositionEntry)
    (getMarket : String → Except String Market)
    (getBalance : String → Except String ℕ) (isCondResolved : String → Bool) :
    List ScanItem :=
  (stored.filter (fun p => p.status == "open")).filterMap
    (processPos getMarket getBalance isCondResolved)

/-- The deduplication key of `scan_all`:
`item.get("condition_id", item.get("market_id", ""))`. -/
def cidOf (it : ScanItem) : String := it.condition_id.getD it.market_id

/-- The second loop of `scan_all` (lines 309-313): append the on-chain
items whose condition was not seen yet, extending the seen set as it
goes. -/
def mergeOnchain (seen : List String) : List ScanItem → List ScanItem
  | [] => []
  | it :: rest =>
    if cidOf it ∈ seen then mergeOnchain seen rest
    else it :: mergeOnchain (cidOf it :: seen) rest

/-- Model of `RedeemExecutor.scan_all`: merge the local scan with the on-chain
Data-API scan (whose paginated HTTP result is the explicit `onchain`
parameter), deduplicating by condition id with local entries first. -/
def scan_all (stored : List PositionEntry)
    (getMarket : String → Except String Market)
    (getBalance : String → Except String ℕ) (isCondResolved : String → Bool)
    (onchain : List ScanItem) : List ScanItem :=
  let localItems := scan_redeemable stored getMarket getBalance isCondResolved
  localItems ++ mergeOnchain (localItems.map cidOf) onchain

/-- Mirror of `RedeemResult` of src/scripts/redeem.py. -/
structure RedeemResult where
  success : Bool
  position_id : String
  market_id : String
  question : String
  position : String
  token_count : QF
  redeemed_usd : QF
  tx_hash : Option String := none
  error : Option String := none
  deriving DecidableEq, Repr

/-- The observable state threaded through `redeem_all`: the accumulated
per-item results, the position store contents, the trace of
`redeem_position` invocations (each recorded with the item that triggered
it), and the trace of `update_status` calls. -/
structure RedeemState where
  results : List RedeemResult
  storage : List PositionEntry
  redeemCalls : List ScanItem
  statusUpdates : List (String × String)
  deriving DecidableEq, Repr

/-- Model of `update_status` applied to the store contents (no change and False
when the id is absent). -/
def applyStatus (storage : List PositionEntry) (pid st : String) : List PositionEntry :=
  (updateStatusList storage pid st).getD storage

/-- Model of `update_notes` applied to the store contents. -/
def applyNotes (storage : List PositionEntry) (pid notes : String) : List PositionEntry :=
  (updateNotesList storage pid notes).getD storage

/-- The audit note appended after a redeem (line 421). -/
def redeemNote (usd : QF) (tx now : String) : String :=
  "Redeemed $" ++ format2 usd ++ " | TX: " ++ tx ++ " | " ++ now

/-- The per-loser result of the no-winners branch (lines 384-393). -/
def loserResult (it : ScanItem) : RedeemResult :=
  { success := true, position_id := it.position_id, market_id := it.market_id
    question := it.question, position := it.position, token_count := QF.ofInt 0
    redeemed_usd := QF.ofInt 0, error := some "Losing position - marked as resolved" }

/-- One iteration of the no-winners loser loop (lines 382-393): mark the
position resolved (for every loser, with no source check in this branch)
and record a per-item result. -/
def loserStepNoWinners (st : RedeemState) (it : ScanItem) : RedeemState :=
  { st with
    storage := applyStatus st.storage it.position_id "resolved"
    statusUpdates := st.statusUpdates ++ [(it.position_id, "resolved")]
    results := st.results ++ [loserResult it] }

/-- The per-item failure result for a raised KeyError on a missing
condition id (caught at line 436, recorded with str of the error). -/
def keyErrorResult (it : ScanItem) : RedeemResult :=
  { success := false, position_id := it.position_id, market_id := it.market_id
    question := it.question, position := it.position
    token_count := it.redeemable_usd, redeemed_usd := QF.ofInt 0
    error := some "\x27condition_id\x27" }

/-- The per-item success result after a confirmed redeem (lines 424-433). -/
def redeemOkResult (it : ScanItem) (tx : String) : RedeemResult :=
  { success := true, position_id := it.position_id, market_id := it.market_id
    question := it.question, position := it.position
    token_count := it.redeemable_usd, redeemed_usd := it.redeemable_usd
    tx_hash := some tx }

/-- The per-item failure result for a failed redeem (lines 438-447). -/
def redeemFailResult (it : ScanItem) (e : String) : RedeemResult :=
  { success := false, position_id := it.position_id, market_id := it.market_id
    question := it.question, position := it.position
    token_count := it.redeemable_usd, redeemed_usd := QF.ofInt 0
    error := some e }

/-- One iteration of the winner loop (lines 407-447).  A missing
`condition_id` key raises `KeyError` inside the per-item try block before
any transaction is submitted; otherwise `redeem_position` is invoked and
its outcome decides the result, with store updates only for local
records. -/
def winnerStep (redeemTx : String → Except String String) (now : String)
    (st : RedeemState) (it : ScanItem) : RedeemState :=
  match it.condition_id with
  | none =>
    { st with results := st.results ++ [keyErrorResult it] }
  | some cid =>
    match redeemTx cid with
    | .ok tx =>
      { results := st.results ++ [redeemOkResult it tx]
        storage :=
          if it.source ≠ "data_api" then
            applyNotes (applyStatus st.storage it.position_id "redeemed")
              it.position_id (redeemNote it.redeemable_usd tx now)
          else st.storage
        redeemCalls := st.redeemCalls ++ [it]
        statusUpdates := st.statusUpdates ++
          (if it.source ≠ "data_api" then [(it.position_id, "redeemed")] else []) }
    | .error e =>
      { st with
        redeemCalls := st.redeemCalls ++ [it]
        results := st.results ++ [redeemFailResult it e] }

/-- One iteration of the final loser loop (lines 449-452), reached when
winners were processed: mark local losers resolved, skip Data-API
items. -/
def loserStepAfterWinners (st : RedeemState) (it : ScanItem) : RedeemState :=
  if it.source ≠ "data_api" then
    { st with
      storage := applyStatus st.storage it.position_id "resolved"
      statusUpdates := st.statusUpdates ++ [(it.position_id, "resolved")] }
  else st

/-- Model of `RedeemExecutor.redeem_all` on a given scan result (the scan itself is
`scan_redeemable` or `scan_all` depending on the onchain flag;
`redeemTx cid` is the outcome of `redeem_position` for that condition:
the transaction hash, or the text of the exception it raised). -/
def redeem_all (scanResult : List ScanItem) (dry_run : Bool)
    (redeemTx : String → Except String String) (storage0 : List PositionEntry)
    (now : String) : RedeemState :=
  if scanResult.isEmpty then ⟨[], storage0, [], []⟩
  else
    let winners := scanResult.filter (fun r => r.is_winner)
    let losers := scanResult.filter (fun r => !r.is_winner)
    if winners.isEmpty then
      losers.foldl loserStepNoWinners ⟨[], storage0, [], []⟩
    else if dry_run then ⟨[], storage0, [], []⟩
    else
      let st1 := winners.foldl (winnerStep redeemTx now) ⟨[], storage0, [], []⟩
      losers.foldl loserStepAfterWinners st1

/-- Record lookup by id (first match, as the store methods do). -/
def findRec (storage : List PositionEntry) (pid : String) : Option PositionEntry :=
  storage.find? (fun q => q.position_id == pid)

/-- A resolved market won by YES (concrete instance for witnesses). -/
def sampleMarketYes : Market :=
  { resolved := true, outcome := some "Yes", condition_id := "0xC1D"
    yes_token_id := "701", no_token_id := "702"
    yes_price := toF64q (qf 99 100), no_price := toF64q (qf 1 100)
    question := "Sample market?" }

/-- A resolved market won by NO (concrete instance for witnesses). -/
def sampleMarketNo : Market :=
  { sampleMarketYes with outcome := some "No" }

/-- Two distinct stored positions on the same market (concrete instance
for the merge counterexample). -/
def dupPos1 : PositionEntry := { samplePos with position_id := "pid-1" }

def dupPos2 : PositionEntry := { samplePos with position_id := "pid-2" }

/-- A Data-API item sharing its condition with the local scan. -/
def onItemDup : ScanItem :=
  { position_id := "onchain-0xC1D", market_id := "0xC1D", question := "Sample market?"
    position := "YES", token_id := "701", market_outcome := "YES", is_winner := true
    on_chain_balance := 50000000, redeemable_usd := QF.ofInt 50
    condition_id := some "0xC1D", source := "data_api" }

/-- A Data-API item with a condition unknown to the local store. -/
def onItemNew : ScanItem :=
  { onItemDup with
    position_id := "onchain-0xFFF", market_id := "0xFFF", condition_id := some "0xFFF" }

/-! ## Theorems -/

theorem updateStatusList_eq_none {l : List PositionEntry} {pid st : String}
    (h : ∀ p ∈ l, p.position_id ≠ pid) : updateStatusList l pid st = none := by
  induction l with
  | nil => rfl
  | cons p rest ih =>
    have hp : p.position_id ≠ pid := h p (List.mem_cons_self p rest)
    have hrest : ∀ q ∈ rest, q.position_id ≠ pid := fun q hq => h q (List.mem_cons_of_mem p hq)
    simp [updateStatusList, hp, ih hrest]

theorem sellFokLoop_length (att : Nat → Except String String) (proxy : Bool)
    (fuel : Nat) : ∀ (i : Nat) (lastE : Option String),
    (sellFokLoop att proxy fuel i lastE).2.length ≤ fuel := by
  induction fuel with
  | zero => intro i lastE; simp [sellFokLoop]
  | succ fuel ih =>
    intro i lastE
    cases h : att i with
    | ok oid => simp [sellFokLoop, h]
    | error e =>
      cases hb : (is_cloudflare_block e && proxy)
      · simp [sellFokLoop, h, hb]
      · simp only [sellFokLoop, h, hb, cond_true, List.length_cons]
        exact Nat.succ_le_succ (ih (i+1) (some e))

theorem sellFokLoop_idx (att : Nat → Except String String) (proxy : Bool)
    (fuel : Nat) : ∀ (i : Nat) (lastE : Option String),
    (sellFokLoop att proxy fuel i lastE).2.map (fun r => r.idx) =
      List.range' i (sellFokLoop att proxy fuel i lastE).2.length := by
  induction fuel with
  | zero => intro i lastE; simp [sellFokLoop]
  | succ fuel ih =>
    intro i lastE
    cases h : att i with
    | ok oid => simp [sellFokLoop, h, List.range']
    | error e =>
      cases hb : (is_cloudflare_block e && proxy)
      · simp [sellFokLoop, h, hb, List.range']
      · simp [sellFokLoop, h, hb, List.range', ih (i+1) (some e)]

theorem sellFokLoop_refreshed (att : Nat → Except String String) (proxy : Bool)
    (fuel : Nat) : ∀ (i : Nat) (lastE : Option String),
    ∀ r ∈ (sellFokLoop att proxy fuel i lastE).2,
      r.refreshed = (decide (0 < r.idx) && proxy) := by
  induction fuel with
  | zero => intro i lastE; simp [sellFokLoop]
  | succ fuel ih =>
    intro i lastE
    cases h : att i with
    | ok oid => simp [sellFokLoop, h]
    | error e =>
      cases hb : (is_cloudflare_block e && proxy)
      · simp [sellFokLoop, h, hb]
      · simp only [sellFokLoop, h, hb, cond_true]
        intro r hr
        simp only [List.mem_cons] at hr
        rcases hr with rfl | hr
        · rfl
        · exact ih (i+1) (some e) r hr

theorem sellFokLoop_retry (att : Nat → Except String String) (proxy : Bool)
    (fuel : Nat) : ∀ (i : Nat) (lastE : Option String) (j : Nat),
    j + 1 < (sellFokLoop att proxy fuel i lastE).2.length →
    proxy = true ∧ ∃ e, att (i + j) = .error e ∧ is_cloudflare_block e = true := by
  induction fuel with
  | zero => intro i lastE j hj; simp [sellFokLoop] at hj
  | succ fuel ih =>
    intro i lastE j hj
    cases h : att i with
    | ok oid => simp [sellFokLoop, h] at hj
    | error e =>
      cases hb : (is_cloudflare_block e && proxy)
      · simp [sellFokLoop, h, hb] at hj
      · simp only [sellFokLoop, h, hb, cond_true, List.length_cons] at hj
        obtain ⟨hce, hpx⟩ := Bool.and_eq_true_iff.mp hb
        match j with
        | 0 => exact ⟨hpx, e, by simpa using h, hce⟩
        | j+1 =>
          have hrec := ih (i+1) (some e) j (by omega)
          have harith : i + 1 + j = i + (j + 1) := by omega
          rw [harith] at hrec
          exact hrec

theorem sellFokLoop_exit_shape (att : Nat → Except String String) (proxy : Bool)
    (fuel : Nat) : ∀ (i : Nat) (lastE : Option String), 1 ≤ fuel →
    (∃ oid, (sellFokLoop att proxy fuel i lastE).1 = .success oid) ∨
    (∃ e, (sellFokLoop att proxy fuel i lastE).1 = .failure (some e)) := by
  induction fuel with
  | zero => intro i lastE h; omega
  | succ fuel ih =>
    intro i lastE _
    cases h : att i with
    | ok oid => exact Or.inl ⟨oid, by simp [sellFokLoop, h]⟩
    | error e =>
      cases hb : (is_cloudflare_block e && proxy)
      · exact Or.inr ⟨e, by simp [sellFokLoop, h, hb]⟩
      · match fuel with
        | 0 =>
          exact Or.inr ⟨e, by simp [sellFokLoop, h, hb]⟩
        | fuel+1 =>
          rcases ih (i+1) (some e) (by omega) with ⟨oid, hx⟩ | ⟨e', hx⟩
          · refine Or.inl ⟨oid, ?_⟩
            simp only [sellFokLoop, h, hb, cond_true]
            exact hx
          · refine Or.inr ⟨e', ?_⟩
            simp only [sellFokLoop, h, hb, cond_true]
            exact hx

/-- C7: the retry policy of `sell_fok`.
For every environment: the attempt bound is the configured
`CLOB_MAX_RETRIES`, defaulting to 5 attempts; an attempt is followed by a
further one only when its error classifies as a Cloudflare/edge block and
a proxy is configured (any other failure ends the loop at once); the
attempt indices are sequential from 0; and a fresh HTTP transport is
constructed exactly on the retry attempts (index greater than 0) when a
proxy is configured, never on the first attempt and never without a
proxy. -/
theorem sell_fok_retry_policy (att : Nat → Except String String) (proxy : Bool)
    (env : Option ℤ) :
    clobMaxRetries none = 5 ∧
    (sellFokRun att proxy (clobMaxRetries env)).2.length ≤ (clobMaxRetries env).toNat ∧
    ((sellFokRun att proxy (clobMaxRetries env)).2.map (fun r => r.idx) =
      List.range' 0 (sellFokRun att proxy (clobMaxRetries env)).2.length) ∧
    (∀ k, k + 1 < (sellFokRun att proxy (clobMaxRetries env)).2.length →
      proxy = true ∧ ∃ e, att k = .error e ∧ is_cloudflare_block e = true) ∧
    (∀ r ∈ (sellFokRun att proxy (clobMaxRetries env)).2,
      r.refreshed = (decide (0 < r.idx) && proxy)) := by
  refine ⟨rfl, sellFokLoop_length att proxy (clobMaxRetries env).toNat 0 none, ?_, ?_, ?_⟩
  · exact sellFokLoop_idx att proxy (clobMaxRetries env).toNat 0 none
  · intro k hk
    simpa using sellFokLoop_retry att proxy (clobMaxRetries env).toNat 0 none k hk
  · exact fun r hr => sellFokLoop_refreshed att proxy (clobMaxRetries env).toNat 0 none r hr

/-- Witness for C7: with a proxy, two simulated edge blocks then success;
three attempts execute, each retry refreshed the transport once, and the
retry-condition hypothesis is discharged at attempt 0. -/
theorem sell_fok_retry_policy_witness :
    (sellFokRun (fun i => if i < 2 then .error "403 blocked" else .ok "oid-3") true
        (clobMaxRetries none)).2.length = 3 ∧
    (sellFokRun (fun i => if i < 2 then .error "403 blocked" else .ok "oid-3") true
        (clobMaxRetries none)).1 = LoopExit.success "oid-3" ∧
    (true = true ∧ ∃ e, (fun i : Nat => if i < 2 then (Except.error "403 blocked" :
        Except String String) else .ok "oid-3") 0 = .error e ∧
        is_cloudflare_block e = true) := by
  refine ⟨by decide, by decide, ?_⟩
  have h := (sell_fok_retry_policy
    (fun i => if i < 2 then .error "403 blocked" else .ok "oid-3") true none).2.2.2.1
  exact h 0 (by decide)

theorem sellFokFinish_some (sp : QF) (e : String) :
    ∃ msg, sellFokFinish sp (some e) = .ok (none, false, some msg) :=
  ⟨_, rfl⟩

/-- C6 counterexample: under the environment override `CLOB_MAX_RETRIES=0`
the attempt loop never runs, `last_error` is still `None` when line 141
inspects it, and `sell_fok` raises `TypeError` to its caller instead of
returning the three-tuple. -/
theorem sell_fok_zero_retries_raises :
    clobMaxRetries (some 0) = 0 ∧
    sell_fok (fun _ => .error "boom") false (clobMaxRetries (some 0)) (toF64q (qf 35 100)) =
      .error PyErr.typeErrorNoneNotIterable :=
  ⟨rfl, rfl⟩

/-- C6 (amended): for every input and every environment configuration
whose retry bound allows at least one attempt (in particular the default
of 5 and any positive `CLOB_MAX_RETRIES` override, with or without a
proxy), `sell_fok` never raises: it returns the
(order-id, filled, error) triple, with the error slot set whenever the
order did not fill and empty when it did. -/
theorem sell_fok_no_raise (att : Nat → Except String String) (proxy : Bool)
    (maxRetries : ℤ) (price : QF) (hpos : 1 ≤ maxRetries) :
    ∃ t, sell_fok att proxy maxRetries price = .ok t ∧
      (t.2.1 = false → t.2.2.isSome = true) ∧ (t.2.1 = true → t.2.2 = none) := by
  have h1 : 1 ≤ maxRetries.toNat := by omega
  rcases sellFokLoop_exit_shape att proxy maxRetries.toNat 0 none h1 with ⟨oid, hx⟩ | ⟨e, hx⟩
  · refine ⟨(some oid, true, none), ?_, by simp, by simp⟩
    simp only [sell_fok, sellFokRun] at hx ⊢
    rw [hx]
  · obtain ⟨msg, hm⟩ := sellFokFinish_some (sellFokPrice price) e
    refine ⟨(none, false, some msg), ?_, by simp, by simp⟩
    simp only [sell_fok, sellFokRun] at hx ⊢
    rw [hx]
    exact hm

/-- Witness for C6 (amended) at a concrete liquidity failure. -/
theorem sell_fok_no_raise_witness :
    (1:ℤ) ≤ 5 ∧
    ∃ t, sell_fok (fun _ => .error "no match for order") false 5 (toF64q (qf 35 100)) =
        .ok t ∧ (t.2.1 = false → t.2.2.isSome = true) ∧ (t.2.1 = true → t.2.2 = none) :=
  ⟨by decide, sell_fok_no_raise (fun _ => .error "no match for order") false 5
    (toF64q (qf 35 100)) (by decide)⟩

theorem sell_fok_shape (att : Nat → Except String String) (proxy : Bool)
    (maxRetries : ℤ) (price : QF) :
    (∃ oid, sell_fok att proxy maxRetries price = .ok (some oid, true, none)) ∨
    (∃ msg, sell_fok att proxy maxRetries price = .ok (none, false, some msg)) ∨
    sell_fok att proxy maxRetries price = .error PyErr.typeErrorNoneNotIterable := by
  rcases hx : (sellFokRun att proxy maxRetries).1 with oid | lastE
  · left
    exact ⟨oid, by simp only [sell_fok]; rw [hx]⟩
  · cases lastE with
    | none =>
      right; right
      simp only [sell_fok]
      rw [hx]
      rfl
    | some e =>
      right; left
      obtain ⟨msg, hm⟩ := sellFokFinish_some (sellFokPrice price) e
      exact ⟨msg, by simp only [sell_fok]; rw [hx]; exact hm⟩

/-- C8 counterexample: at reference price 0.35 the limit price the code
computes is the double 0.32, not 0.31: the double product
0.35 * 0.90 is 0.315000000000000002..., which rounds up to 0.32 (and even
exact decimal rounding of 0.315 with ties-to-even would give 0.32). -/
theorem sell_price_at_035_is_032_not_031 :
    sellFokPrice (toF64q (qf 35 100)) = toF64q (qf 32 100) ∧
    sellFokPrice (toF64q (qf 35 100)) ≠ toF64q (qf 31 100) :=
  ⟨by decide, by decide⟩

/-- C8 (amended): `sell_fok` computes its limit price as 90 percent of the
reference price, floored at the 0.01 minimum tick and rounded to two
decimal places, all in IEEE double arithmetic as the source does; in
particular a reference price of 0.35 yields a limit price of 0.32. -/
theorem sell_fok_limit_price (price : QF) :
    sellFokPrice price = pyRound2 (QF.pymax (fmulq price lit090) lit001) ∧
    sellFokPrice (toF64q (qf 35 100)) = toF64q (qf 32 100) :=
  ⟨rfl, by decide⟩

/-- C2: every store mutation either performs no file-system step at all or
writes the complete new collection to the temporary file and only then
renames it over the backing file; consequently `load_all` observed after a
crash at any point during the mutation (i.e. after any prefix of its
steps) returns either the complete pre-mutation collection or the complete
post-mutation collection. -/
theorem store_mutation_crash_atomicity (op : StoreOp) (s : FsState) (n : ℕ) :
    (storeOpSteps op (load_all s) = [] ∨
      storeOpSteps op (load_all s) =
        [FsStep.writeTemp (applyStoreOp op (load_all s)).1, FsStep.renameTempToMain]) ∧
    (load_all (applyFsSteps s ((storeOpSteps op (load_all s)).take n)) = load_all s ∨
      load_all (applyFsSteps s ((storeOpSteps op (load_all s)).take n)) =
        (applyStoreOp op (load_all s)).1) := by
  constructor
  · unfold storeOpSteps
    rcases h : applyStoreOp op (load_all s) with ⟨positions', flag⟩
    cases flag
    · exact Or.inl rfl
    · exact Or.inr rfl
  · unfold storeOpSteps
    rcases h : applyStoreOp op (load_all s) with ⟨positions', flag⟩
    cases flag
    · left; simp [applyFsSteps, load_all]
    · match n with
      | 0 => left; simp [applyFsSteps, load_all]
      | 1 => left; simp [save_all_steps, applyFsSteps, applyFsStep, load_all, List.take]
      | (m+2) =>
        right
        simp [save_all_steps, applyFsSteps, applyFsStep, load_all, List.take]

/-- C9: `update_status` on an id not present in the store returns False,
leaves the collection unchanged, and performs no write to the backing
file. -/
theorem update_status_missing_id_no_write (positions : List PositionEntry)
    (pid st : String) (h : ∀ p ∈ positions, p.position_id ≠ pid) :
    applyStoreOp (StoreOp.updateStatus pid st) positions = (positions, false) ∧
    storeOpSteps (StoreOp.updateStatus pid st) positions = [] := by
  have hnone : updateStatusList positions pid st = none := updateStatusList_eq_none h
  constructor
  · simp [applyStoreOp, hnone]
  · simp [storeOpSteps, applyStoreOp, hnone]

/-- C1: when the split transaction confirms and the subsequent hedge sell
fails (retry budget exhausted, liquidity failure, or an exception from the
order-book client), `buy_position` still returns `success=true` with the
confirmed split transaction hash, carrying the hedge failure as a
non-fatal error string; and `cmd_buy` persists exactly one record for the
split, with `clob_filled=false` and `clob_order_id` absent.  Environment:
valid side, wallet unlocked, sufficient balance, market fetched, split
confirmed with hash `tx`, hedge not skipped, nonempty unwanted token, and
the hedge did not fill. -/
theorem buy_position_hedge_failure (market_id position0 : String) (amount : QF)
    (usdc_e : QF) (market : Market) (tx : String)
    (att : Nat → Except String String) (proxy : Bool) (maxRetries : ℤ)
    (positions : List PositionEntry) (newId entry_time : String)
    (hYN : pyUpper position0 = "YES" ∨ pyUpper position0 = "NO")
    (hbal : QF.blt usdc_e amount = false)
    (hu : (if pyUpper position0 = "YES" then market.no_token_id else market.yes_token_id) ≠ "")
    (hfail : hedgeFilled (sell_fok att proxy maxRetries
      (if pyUpper position0 = "YES" then market.no_price else market.yes_price)) = false) :
    (buy_position market_id position0 amount false true usdc_e (.ok market) (.ok tx)
        att proxy maxRetries).success = true ∧
    (buy_position market_id position0 amount false true usdc_e (.ok market) (.ok tx)
        att proxy maxRetries).split_tx = some tx ∧
    (∃ msg, (buy_position market_id position0 amount false true usdc_e (.ok market) (.ok tx)
        att proxy maxRetries).error = some msg) ∧
    (buy_position market_id position0 amount false true usdc_e (.ok market) (.ok tx)
        att proxy maxRetries).clob_filled = false ∧
    (buy_position market_id position0 amount false true usdc_e (.ok market) (.ok tx)
        att proxy maxRetries).clob_order_id = none ∧
    cmd_buy_store (buy_position market_id position0 amount false true usdc_e (.ok market)
        (.ok tx) att proxy maxRetries) positions newId entry_time =
      positions ++ [mkPositionEntry (buy_position market_id position0 amount false true usdc_e
        (.ok market) (.ok tx) att proxy maxRetries) newId entry_time] ∧
    (mkPositionEntry (buy_position market_id position0 amount false true usdc_e (.ok market)
        (.ok tx) att proxy maxRetries) newId entry_time).clob_filled = false ∧
    (mkPositionEntry (buy_position market_id position0 amount false true usdc_e (.ok market)
        (.ok tx) att proxy maxRetries) newId entry_time).clob_order_id = none ∧
    (mkPositionEntry (buy_position market_id position0 amount false true usdc_e (.ok market)
        (.ok tx) att proxy maxRetries) newId entry_time).split_tx = tx := by
  rcases sell_fok_shape att proxy maxRetries
      (if pyUpper position0 = "YES" then market.no_price else market.yes_price) with
    ⟨oid, hok⟩ | ⟨msg, hok⟩ | herr
  · rw [hok] at hfail
    simp [hedgeFilled] at hfail
  · rcases hYN with hY | hN
    · rw [hY] at hu hok
      simp at hu hok
      refine ⟨?_, ?_, ⟨msg, ?_⟩, ?_, ?_, ?_, ?_, ?_, ?_⟩ <;>
        simp [buy_position, cmd_buy_store, mkPositionEntry, applyStoreOp, hY, hbal, hu, hok]
    · rw [hN] at hu hok
      simp at hu hok
      refine ⟨?_, ?_, ⟨msg, ?_⟩, ?_, ?_, ?_, ?_, ?_, ?_⟩ <;>
        simp [buy_position, cmd_buy_store, mkPositionEntry, applyStoreOp, hN, hbal, hu, hok]
  · rcases hYN with hY | hN
    · rw [hY] at hu herr
      simp at hu herr
      refine ⟨?_, ?_, ⟨pyErrStr PyErr.typeErrorNoneNotIterable, ?_⟩, ?_, ?_, ?_, ?_, ?_, ?_⟩ <;>
        simp [buy_position, cmd_buy_store, mkPositionEntry, applyStoreOp, hY, hbal, hu, herr]
    · rw [hN] at hu herr
      simp at hu herr
      refine ⟨?_, ?_, ⟨pyErrStr PyErr.typeErrorNoneNotIterable, ?_⟩, ?_, ?_, ?_, ?_, ?_, ?_⟩ <;>
        simp [buy_position, cmd_buy_store, mkPositionEntry, applyStoreOp, hN, hbal, hu, herr]

/-- Witness for C1: side given as lowercase no, a split confirming with
hash 0xAAA, and a hedge that fails with a liquidity error on every
attempt. -/
theorem buy_position_hedge_failure_witness :
    (pyUpper "no" = "YES" ∨ pyUpper "no" = "NO") ∧
    QF.blt (QF.ofInt 100) (QF.ofInt 50) = false ∧
    (buy_position "516861" "no" (QF.ofInt 50) false true (QF.ofInt 100)
        (.ok { resolved := false, outcome := none, condition_id := "0xC1D",
               yes_token_id := "701", no_token_id := "702",
               yes_price := toF64q (qf 65 100), no_price := toF64q (qf 35 100),
               question := "Sample market?" })
        (.ok "0xAAA") (fun _ => .error "no match for order") false 5).success = true ∧
    (buy_position "516861" "no" (QF.ofInt 50) false true (QF.ofInt 100)
        (.ok { resolved := false, outcome := none, condition_id := "0xC1D",
               yes_token_id := "701", no_token_id := "702",
               yes_price := toF64q (qf 65 100), no_price := toF64q (qf 35 100),
               question := "Sample market?" })
        (.ok "0xAAA") (fun _ => .error "no match for order") false 5).split_tx = some "0xAAA" := by
  refine ⟨by decide, by decide, ?_, ?_⟩
  · exact (buy_position_hedge_failure "516861" "no" (QF.ofInt 50) (QF.ofInt 100)
      { resolved := false, outcome := none, condition_id := "0xC1D",
        yes_token_id := "701", no_token_id := "702",
        yes_price := toF64q (qf 65 100), no_price := toF64q (qf 35 100),
        question := "Sample market?" }
      "0xAAA" (fun _ => .error "no match for order") false 5 [] "id-1" "t0"
      (by decide) (by decide) (by decide) (by decide)).1
  · exact (buy_position_hedge_failure "516861" "no" (QF.ofInt 50) (QF.ofInt 100)
      { resolved := false, outcome := none, condition_id := "0xC1D",
        yes_token_id := "701", no_token_id := "702",
        yes_price := toF64q (qf 65 100), no_price := toF64q (qf 35 100),
        question := "Sample market?" }
      "0xAAA" (fun _ => .error "no match for order") false 5 [] "id-1" "t0"
      (by decide) (by decide) (by decide) (by decide)).2.1

/-- Witness for C9 at a concrete store and id. -/
theorem update_status_missing_id_no_write_witness :
    applyStoreOp (StoreOp.updateStatus "no-such-id" "resolved") [samplePos] =
      ([samplePos], false) ∧
    storeOpSteps (StoreOp.updateStatus "no-such-id" "resolved") [samplePos] = [] :=
  update_status_missing_id_no_write [samplePos] "no-such-id" "resolved" (by decide)

theorem processPos_winner (getMarket : String → Except String Market)
    (getBalance : String → Except String ℕ) (isCondResolved : String → Bool)
    (pos : PositionEntry) (market : Market) (B : ℕ)
    (hm : getMarket pos.market_id = .ok market) (hres : market.resolved = true)
    (houtcome : pyUpper (market.outcome.getD "") = pyUpper pos.position)
    (hYN : pyUpper pos.position = "YES" ∨ pyUpper pos.position = "NO")
    (htok : pos.token_id ≠ "") (hbal : getBalance pos.token_id = .ok B)
    (hBpos : 0 < B) (hcond : isCondResolved market.condition_id = true) :
    processPos getMarket getBalance isCondResolved pos =
      some (winnerItem pos market (pyUpper (market.outcome.getD "")) B) := by
  have hw : (pyUpper (market.outcome.getD "") = "YES" ∧ pyUpper pos.position = "YES") ∨
      (pyUpper (market.outcome.getD "") = "NO" ∧ pyUpper pos.position = "NO") := by
    rcases hYN with h | h
    · exact Or.inl ⟨by rw [houtcome, h], h⟩
    · exact Or.inr ⟨by rw [houtcome, h], h⟩
  simp only [processPos, hm, hres, hbal, hcond, not_true, if_false]
  rw [if_neg (not_not_intro hw)]
  rw [if_neg htok]
  rw [if_neg (by omega : ¬ B = 0)]

/-- C3: a locally stored open position held on the winning side of a
resolved market, whose token has on-chain balance B greater than zero and
whose condition is resolved on-chain, is included in the output of
`scan_redeemable` classified as a winner with
`redeemable_usd = B / 1e6` (in the float arithmetic of the source) and
`on_chain_balance = B`. -/
theorem scan_redeemable_winner_classified (stored : List PositionEntry)
    (getMarket : String → Except String Market) (getBalance : String → Except String ℕ)
    (isCondResolved : String → Bool) (pos : PositionEntry) (market : Market) (B : ℕ)
    (hmem : pos ∈ stored) (hopen : pos.status = "open")
    (hm : getMarket pos.market_id = .ok market) (hres : market.resolved = true)
    (houtcome : pyUpper (market.outcome.getD "") = pyUpper pos.position)
    (hYN : pyUpper pos.position = "YES" ∨ pyUpper pos.position = "NO")
    (htok : pos.token_id ≠ "") (hbal : getBalance pos.token_id = .ok B)
    (hBpos : 0 < B) (hcond : isCondResolved market.condition_id = true) :
    winnerItem pos market (pyUpper (market.outcome.getD "")) B ∈
      scan_redeemable stored getMarket getBalance isCondResolved ∧
    (winnerItem pos market (pyUpper (market.outcome.getD "")) B).is_winner = true ∧
    (winnerItem pos market (pyUpper (market.outcome.getD "")) B).redeemable_usd =
      fdivq (intToF64 B) lit1e6 ∧
    (winnerItem pos market (pyUpper (market.outcome.getD "")) B).on_chain_balance = B := by
  refine ⟨?_, rfl, rfl, rfl⟩
  apply List.mem_filterMap.mpr
  refine ⟨pos, List.mem_filter.mpr ⟨hmem, by simp [hopen]⟩, ?_⟩
  exact processPos_winner getMarket getBalance isCondResolved pos market B
    hm hres houtcome hYN htok hbal hBpos hcond

/-- Witness for C3: one stored open YES position, a market resolved YES,
a 50 USDC on-chain balance, and a resolved condition. -/
theorem scan_redeemable_winner_classified_witness :
    winnerItem samplePos sampleMarketYes (pyUpper (sampleMarketYes.outcome.getD "")) 50000000 ∈
      scan_redeemable [samplePos] (fun _ => .ok sampleMarketYes) (fun _ => .ok 50000000)
        (fun _ => true) ∧
    fdivq (intToF64 50000000) lit1e6 = QF.ofInt 50 ∧
    pyUpper (sampleMarketYes.outcome.getD "") = "YES" := by
  refine ⟨?_, by decide, by decide⟩
  exact (scan_redeemable_winner_classified [samplePos] (fun _ => .ok sampleMarketYes)
    (fun _ => .ok 50000000) (fun _ => true) samplePos sampleMarketYes 50000000
    (by decide) (by decide) (by decide) (by decide) (by decide) (by decide)
    (by decide) (by decide) (by decide) (by decide)).1

theorem foldl_loserStepNoWinners (ls : List ScanItem) :
    ∀ st : RedeemState,
    ls.foldl loserStepNoWinners st =
      { results := st.results ++ ls.map loserResult
        storage := ls.foldl (fun s it => applyStatus s it.position_id "resolved") st.storage
        redeemCalls := st.redeemCalls
        statusUpdates := st.statusUpdates ++
          ls.map (fun it => (it.position_id, "resolved")) } := by
  induction ls with
  | nil => intro st; simp
  | cons it ls ih =>
    intro st
    simp only [List.foldl_cons, ih, loserStepNoWinners, List.map_cons]
    simp [List.append_assoc]

/-- C10: invoking `redeem_all` with `dry_run=true` when the scan found at
least one losing resolved position and no winner nonetheless mutates the
Position Store: the behaviour is identical to `dry_run=false` (the
dry-run guard is only consulted after at least one winner has been
found), each loser gets an `update_status(..., "resolved")` call applied
to the store, a per-item result is returned for it, and no redeem
transaction is submitted. -/
theorem redeem_all_dry_run_marks_losers (scanResult : List ScanItem)
    (redeemTx : String → Except String String) (storage0 : List PositionEntry)
    (now : String) (hne : scanResult ≠ [])
    (hall : ∀ it ∈ scanResult, it.is_winner = false) :
    redeem_all scanResult true redeemTx storage0 now =
      redeem_all scanResult false redeemTx storage0 now ∧
    (redeem_all scanResult true redeemTx storage0 now).statusUpdates =
      scanResult.map (fun it => (it.position_id, "resolved")) ∧
    (redeem_all scanResult true redeemTx storage0 now).results =
      scanResult.map loserResult ∧
    (redeem_all scanResult true redeemTx storage0 now).storage =
      scanResult.foldl (fun s it => applyStatus s it.position_id "resolved") storage0 ∧
    (redeem_all scanResult true redeemTx storage0 now).redeemCalls = [] := by
  have hwin : scanResult.filter (fun r => r.is_winner) = [] := by
    rw [List.filter_eq_nil_iff]
    intro a ha
    simp [hall a ha]
  have hlos : scanResult.filter (fun r => !r.is_winner) = scanResult := by
    rw [List.filter_eq_self]
    intro a ha
    simp [hall a ha]
  have hbranch : ∀ d : Bool, redeem_all scanResult d redeemTx storage0 now =
      scanResult.foldl loserStepNoWinners ⟨[], storage0, [], []⟩ := by
    intro d
    simp only [redeem_all, hwin, hlos]
    rw [if_neg (by simpa [List.isEmpty_iff] using hne)]
    simp
  refine ⟨by rw [hbranch, hbranch], ?_, ?_, ?_, ?_⟩ <;>
    simp [hbranch, foldl_loserStepNoWinners]

/-- Witness for C10: one losing resolved local position, dry run
requested; the store update and the per-item result still happen. -/
theorem redeem_all_dry_run_marks_losers_witness :
    ([loserItem samplePos "NO"] ≠ ([] : List ScanItem)) ∧
    (redeem_all [loserItem samplePos "NO"] true (fun _ => .ok "0xTX") [samplePos]
      "t0").statusUpdates = [(samplePos.position_id, "resolved")] ∧
    (redeem_all [loserItem samplePos "NO"] true (fun _ => .ok "0xTX") [samplePos]
      "t0").storage = [{ samplePos with status := "resolved" }] := by
  refine ⟨by decide, ?_, by decide⟩
  have h := (redeem_all_dry_run_marks_losers [loserItem samplePos "NO"]
    (fun _ => .ok "0xTX") [samplePos] "t0" (by decide) (by decide)).2.1
  simpa using h

theorem mergeOnchain_mem (onchain : List ScanItem) : ∀ (seen : List String),
    ∀ x ∈ mergeOnchain seen onchain, x ∈ onchain ∧ cidOf x ∉ seen := by
  induction onchain with
  | nil => intro seen x hx; simp [mergeOnchain] at hx
  | cons it rest ih =>
    intro seen x hx
    simp only [mergeOnchain] at hx
    by_cases hc : cidOf it ∈ seen
    · rw [if_pos hc] at hx
      obtain ⟨hmem, hni⟩ := ih seen x hx
      exact ⟨List.mem_cons_of_mem _ hmem, hni⟩
    · rw [if_neg hc] at hx
      rcases List.mem_cons.mp hx with rfl | hx
      · exact ⟨List.mem_cons_self _ _, hc⟩
      · obtain ⟨hmem, hni⟩ := ih (cidOf it :: seen) x hx
        exact ⟨List.mem_cons_of_mem _ hmem, fun hs => hni (List.mem_cons_of_mem _ hs)⟩

theorem mergeOnchain_nodup (onchain : List ScanItem) : ∀ (seen : List String),
    seen.Nodup → (seen ++ (mergeOnchain seen onchain).map cidOf).Nodup := by
  induction onchain with
  | nil => intro seen h; simpa [mergeOnchain]
  | cons it rest ih =>
    intro seen h
    simp only [mergeOnchain]
    by_cases hc : cidOf it ∈ seen
    · rw [if_pos hc]
      exact ih seen h
    · rw [if_neg hc]
      have h3 := ih (cidOf it :: seen) (List.nodup_cons.mpr ⟨hc, h⟩)
      rw [List.cons_append] at h3
      simpa using List.perm_middle.nodup_iff.mpr h3

theorem mergeOnchain_covers (onchain : List ScanItem) : ∀ (seen : List String),
    ∀ x ∈ onchain, cidOf x ∈ seen ∨ cidOf x ∈ (mergeOnchain seen onchain).map cidOf := by
  induction onchain with
  | nil => intro seen x hx; simp at hx
  | cons it rest ih =>
    intro seen x hx
    simp only [mergeOnchain]
    by_cases hc : cidOf it ∈ seen
    · rw [if_pos hc]
      rcases List.mem_cons.mp hx with rfl | hx
      · exact Or.inl hc
      · exact ih seen x hx
    · rw [if_neg hc]
      rcases List.mem_cons.mp hx with rfl | hx
      · right; simp
      · rcases ih (cidOf it :: seen) x hx with hs | hm
        · rcases List.mem_cons.mp hs with heq | hs
          · right; simp [heq]
          · exact Or.inl hs
        · right
          simp only [List.map_cons, List.mem_cons]
          exact Or.inr hm

/-- C5 counterexample: two distinct stored open positions on the same
market both land in the scan with the same condition key, and `scan_all`
keeps both — the merged list does not have exactly one entry per
condition identifier. -/
theorem scan_all_duplicate_condition_counterexample :
    ((scan_all [dupPos1, dupPos2] (fun _ => .ok sampleMarketNo) (fun _ => .ok 0)
        (fun _ => false) []).map cidOf) = ["516861", "516861"] ∧
    ¬ ((scan_all [dupPos1, dupPos2] (fun _ => .ok sampleMarketNo) (fun _ => .ok 0)
        (fun _ => false) []).map cidOf).Nodup :=
  ⟨by decide, by decide⟩

/-- C5 (amended): provided the local-scan entries carry pairwise distinct
condition identifiers, `scan_all` returns a merged list with exactly one
entry per condition identifier: the local entries are all kept, verbatim
and in order, as a prefix of the output; every appended entry is an
on-chain entry whose condition did not appear locally; and every
condition of the on-chain scan appears in the output (so when a condition
appears in both inputs, the local entry is the one that represents
it). -/
theorem scan_all_merge_unique_conditions (stored : List PositionEntry)
    (getMarket : String → Except String Market) (getBalance : String → Except String ℕ)
    (isCondResolved : String → Bool) (onchain : List ScanItem)
    (hnd : ((scan_redeemable stored getMarket getBalance isCondResolved).map cidOf).Nodup) :
    ((scan_all stored getMarket getBalance isCondResolved onchain).map cidOf).Nodup ∧
    (∃ tail, scan_all stored getMarket getBalance isCondResolved onchain =
        scan_redeemable stored getMarket getBalance isCondResolved ++ tail ∧
      ∀ x ∈ tail, x ∈ onchain ∧
        cidOf x ∉ (scan_redeemable stored getMarket getBalance isCondResolved).map cidOf) ∧
    (∀ x ∈ onchain, cidOf x ∈
      (scan_all stored getMarket getBalance isCondResolved onchain).map cidOf) := by
  refine ⟨?_, ?_, ?_⟩
  · simp only [scan_all, List.map_append]
    exact mergeOnchain_nodup onchain _ hnd
  · exact ⟨mergeOnchain ((scan_redeemable stored getMarket getBalance isCondResolved).map
      cidOf) onchain, rfl, mergeOnchain_mem onchain _⟩
  · intro x hx
    simp only [scan_all, List.map_append, List.mem_append]
    rcases mergeOnchain_covers onchain
        ((scan_redeemable stored getMarket getBalance isCondResolved).map cidOf) x hx with
      hs | hm
    · exact Or.inl hs
    · exact Or.inr hm

/-- Witness for C5 (amended): one local winner, one Data-API duplicate of
it (dropped) and one Data-API-only item (appended). -/
theorem scan_all_merge_unique_conditions_witness :
    ((scan_redeemable [samplePos] (fun _ => .ok sampleMarketYes) (fun _ => .ok 50000000)
        (fun _ => true)).map cidOf).Nodup ∧
    ((scan_all [samplePos] (fun _ => .ok sampleMarketYes) (fun _ => .ok 50000000)
        (fun _ => true) [onItemDup, onItemNew]).map cidOf).Nodup ∧
    ((scan_all [samplePos] (fun _ => .ok sampleMarketYes) (fun _ => .ok 50000000)
        (fun _ => true) [onItemDup, onItemNew]).map cidOf) = ["0xC1D", "0xFFF"] := by
  refine ⟨by decide, ?_, by decide⟩
  exact (scan_all_merge_unique_conditions [samplePos] (fun _ => .ok sampleMarketYes)
    (fun _ => .ok 50000000) (fun _ => true) [onItemDup, onItemNew] (by decide)).1

theorem processPos_pid (getMarket : String → Except String Market)
    (getBalance : String → Except String ℕ) (isCondResolved : String → Bool)
    (q : PositionEntry) (x : ScanItem)
    (hx : processPos getMarket getBalance isCondResolved q = some x) :
    x.position_id = q.position_id := by
  unfold processPos at hx
  split at hx
  · simp at hx
  · split at hx
    · simp at hx
    · dsimp only at hx
      split at hx
      · injection hx with h
        subst h
        rfl
      · split at hx
        · simp at hx
        · split at hx
          · simp at hx
          · split at hx
            · simp at hx
            · split at hx
              · simp at hx
              · injection hx with h
                subst h
                rfl


theorem processPos_loser (getMarket : String → Except String Market)
    (getBalance : String → Except String ℕ) (isCondResolved : String → Bool)
    (pos : PositionEntry) (market : Market)
    (hm : getMarket pos.market_id = .ok market) (hres : market.resolved = true)
    (hdiff : pyUpper (market.outcome.getD "") ≠ pyUpper pos.position) :
    processPos getMarket getBalance isCondResolved pos =
      some (loserItem pos (pyUpper (market.outcome.getD ""))) := by
  have hnw : ¬ ((pyUpper (market.outcome.getD "") = "YES" ∧ pyUpper pos.position = "YES") ∨
      (pyUpper (market.outcome.getD "") = "NO" ∧ pyUpper pos.position = "NO")) := by
    rintro (⟨h1, h2⟩ | ⟨h1, h2⟩) <;> exact hdiff (h1.trans h2.symm)
  simp only [processPos, hm, hres, not_true, if_false]
  rw [if_pos hnw]

theorem applyStatus_nil (pid st : String) : applyStatus [] pid st = [] := rfl

theorem applyStatus_cons (p : PositionEntry) (rest : List PositionEntry) (pid st : String) :
    applyStatus (p :: rest) pid st =
      if p.position_id = pid then { p with status := st } :: rest
      else p :: applyStatus rest pid st := by
  simp only [applyStatus, updateStatusList]
  by_cases h : p.position_id = pid
  · simp [h]
  · simp only [if_neg h]
    cases hrec : updateStatusList rest pid st <;> simp

theorem applyNotes_nil (pid notes : String) : applyNotes [] pid notes = [] := rfl

theorem applyNotes_cons (p : PositionEntry) (rest : List PositionEntry) (pid notes : String) :
    applyNotes (p :: rest) pid notes =
      if p.position_id = pid then { p with notes := some notes } :: rest
      else p :: applyNotes rest pid notes := by
  simp only [applyNotes, updateNotesList]
  by_cases h : p.position_id = pid
  · simp [h]
  · simp only [if_neg h]
    cases hrec : updateNotesList rest pid notes <;> simp

theorem findRec_applyStatus_ne (s : List PositionEntry) (pid pid' st : String)
    (h : pid' ≠ pid) : findRec (applyStatus s pid' st) pid = findRec s pid := by
  induction s with
  | nil => rfl
  | cons p rest ih =>
    rw [applyStatus_cons]
    by_cases hp : p.position_id = pid'
    · rw [if_pos hp]
      simp [findRec, List.find?_cons, hp, h]
    · rw [if_neg hp]
      by_cases hq : p.position_id = pid
      · simp [findRec, List.find?_cons, hq]
      · simpa [findRec, List.find?_cons, hq] using ih

theorem findRec_applyNotes_ne (s : List PositionEntry) (pid pid' notes : String)
    (h : pid' ≠ pid) : findRec (applyNotes s pid' notes) pid = findRec s pid := by
  induction s with
  | nil => rfl
  | cons p rest ih =>
    rw [applyNotes_cons]
    by_cases hp : p.position_id = pid'
    · rw [if_pos hp]
      simp [findRec, List.find?_cons, hp, h]
    · rw [if_neg hp]
      by_cases hq : p.position_id = pid
      · simp [findRec, List.find?_cons, hq]
      · simpa [findRec, List.find?_cons, hq] using ih

theorem findRec_applyStatus_eq (s : List PositionEntry) (pid st : String) :
    findRec (applyStatus s pid st) pid =
      (findRec s pid).map (fun q => { q with status := st }) := by
  induction s with
  | nil => rfl
  | cons p rest ih =>
    rw [applyStatus_cons]
    by_cases hp : p.position_id = pid
    · rw [if_pos hp]
      simp [findRec, List.find?_cons, hp]
    · rw [if_neg hp]
      simpa [findRec, List.find?_cons, hp] using ih

theorem findRec_mem_nodup (stored : List PositionEntry) (pos : PositionEntry)
    (hnodup : (stored.map (fun p => p.position_id)).Nodup) (hmem : pos ∈ stored) :
    findRec stored pos.position_id = some pos := by
  induction stored with
  | nil => simp at hmem
  | cons p rest ih =>
    rcases List.mem_cons.mp hmem with rfl | hmem
    · simp [findRec, List.find?_cons]
    · have hne : p.position_id ≠ pos.position_id := by
        intro he
        have hp : pos.position_id ∈ rest.map (fun q => q.position_id) :=
          List.mem_map.mpr ⟨pos, hmem, rfl⟩
        rw [List.map_cons, List.nodup_cons] at hnodup
        exact hnodup.1 (he ▸ hp)
      rw [List.map_cons, List.nodup_cons] at hnodup
      simpa [findRec, List.find?_cons, hne] using ih hnodup.2 hmem

theorem winnerStep_findRec_ne (redeemTx : String → Except String String) (now : String)
    (st : RedeemState) (w : ScanItem) (pid : String) (h : w.position_id ≠ pid) :
    findRec ((winnerStep redeemTx now st w).storage) pid = findRec st.storage pid := by
  unfold winnerStep
  rcases hc : w.condition_id with _ | cid
  · rfl
  · rcases hr : redeemTx cid with e | tx
    · simp only [hr]
    · simp only [hr]
      by_cases hs : w.source ≠ "data_api"
      · simp only [if_pos hs]
        rw [findRec_applyNotes_ne _ _ _ _ h, findRec_applyStatus_ne _ _ _ _ h]
      · simp only [if_neg hs]

theorem foldl_winnerStep_findRec (redeemTx : String → Except String String) (now : String)
    (ws : List ScanItem) : ∀ (st : RedeemState) (pid : String),
    (∀ w ∈ ws, w.position_id ≠ pid) →
    findRec ((ws.foldl (winnerStep redeemTx now) st).storage) pid =
      findRec st.storage pid := by
  induction ws with
  | nil => intro st pid _; rfl
  | cons w ws ih =>
    intro st pid h
    rw [List.foldl_cons, ih _ pid (fun x hx => h x (List.mem_cons_of_mem _ hx))]
    exact winnerStep_findRec_ne redeemTx now st w pid (h w (List.mem_cons_self _ _))

theorem loserStepAfterWinners_findRec_ne (st : RedeemState) (x : ScanItem) (pid : String)
    (h : x.position_id ≠ pid) :
    findRec ((loserStepAfterWinners st x).storage) pid = findRec st.storage pid := by
  unfold loserStepAfterWinners
  by_cases hs : x.source ≠ "data_api"
  · simp only [if_pos hs]
    exact findRec_applyStatus_ne _ _ _ _ h
  · simp only [if_neg hs]

theorem foldl_loserStepAfterWinners_findRec_ne (ls : List ScanItem) :
    ∀ (st : RedeemState) (pid : String), (∀ x ∈ ls, x.position_id ≠ pid) →
    findRec ((ls.foldl loserStepAfterWinners st).storage) pid = findRec st.storage pid := by
  induction ls with
  | nil => intro st pid _; rfl
  | cons x ls ih =>
    intro st pid h
    rw [List.foldl_cons, ih _ pid (fun y hy => h y (List.mem_cons_of_mem _ hy))]
    exact loserStepAfterWinners_findRec_ne st x pid (h x (List.mem_cons_self _ _))

theorem foldl_loserStepNoWinners_findRec_ne (ls : List ScanItem) :
    ∀ (st : RedeemState) (pid : String), (∀ x ∈ ls, x.position_id ≠ pid) →
    findRec ((ls.foldl loserStepNoWinners st).storage) pid = findRec st.storage pid := by
  induction ls with
  | nil => intro st pid _; rfl
  | cons x ls ih =>
    intro st pid h
    rw [List.foldl_cons, ih _ pid (fun y hy => h y (List.mem_cons_of_mem _ hy))]
    exact findRec_applyStatus_ne _ _ _ _ (h x (List.mem_cons_self _ _))

theorem winnerStep_calls (redeemTx : String → Except String String) (now : String)
    (st : RedeemState) (w x : ScanItem)
    (hx : x ∈ (winnerStep redeemTx now st w).redeemCalls) :
    x ∈ st.redeemCalls ∨ x = w := by
  unfold winnerStep at hx
  rcases hc : w.condition_id with _ | cid
  · simp only [hc] at hx
    exact Or.inl hx
  · simp only [hc] at hx
    rcases hr : redeemTx cid with e | tx
    · simp only [hr] at hx
      rcases List.mem_append.mp hx with h | h
      · exact Or.inl h
      · exact Or.inr (by simpa using h)
    · simp only [hr] at hx
      rcases List.mem_append.mp hx with h | h
      · exact Or.inl h
      · exact Or.inr (by simpa using h)

theorem foldl_winnerStep_calls (redeemTx : String → Except String String) (now : String)
    (ws : List ScanItem) : ∀ (st : RedeemState) (x : ScanItem),
    x ∈ (ws.foldl (winnerStep redeemTx now) st).redeemCalls →
    x ∈ st.redeemCalls ∨ x ∈ ws := by
  induction ws with
  | nil => intro st x hx; exact Or.inl hx
  | cons w ws ih =>
    intro st x hx
    rw [List.foldl_cons] at hx
    rcases ih _ x hx with h1 | h2
    · rcases winnerStep_calls redeemTx now st w x h1 with h | rfl
      · exact Or.inl h
      · exact Or.inr (List.mem_cons_self _ _)
    · exact Or.inr (List.mem_cons_of_mem _ h2)

theorem foldl_loserStepAfterWinners_calls (ls : List ScanItem) :
    ∀ st : RedeemState, (ls.foldl loserStepAfterWinners st).redeemCalls = st.redeemCalls := by
  induction ls with
  | nil => intro st; rfl
  | cons it ls ih =>
    intro st
    rw [List.foldl_cons, ih]
    unfold loserStepAfterWinners
    by_cases hs : it.source ≠ "data_api"
    · simp only [if_pos hs]
    · simp only [if_neg hs]

theorem foldl_loserStepAfterWinners_ups_mono (ls : List ScanItem) :
    ∀ (st : RedeemState) (x : String × String), x ∈ st.statusUpdates →
    x ∈ (ls.foldl loserStepAfterWinners st).statusUpdates := by
  induction ls with
  | nil => intro st x hx; exact hx
  | cons it ls ih =>
    intro st x hx
    rw [List.foldl_cons]
    apply ih
    unfold loserStepAfterWinners
    by_cases hs : it.source ≠ "data_api"
    · simp only [if_pos hs]
      exact List.mem_append_left _ hx
    · simpa only [if_neg hs] using hx

theorem foldl_loserStepAfterWinners_ups_mem (ls : List ScanItem) :
    ∀ (st : RedeemState) (x : ScanItem), x ∈ ls → x.source ≠ "data_api" →
    (x.position_id, "resolved") ∈ (ls.foldl loserStepAfterWinners st).statusUpdates := by
  induction ls with
  | nil => intro st x hx _; simp at hx
  | cons it ls ih =>
    intro st x hx hsrc
    rw [List.foldl_cons]
    rcases List.mem_cons.mp hx with rfl | hx
    · apply foldl_loserStepAfterWinners_ups_mono
      unfold loserStepAfterWinners
      simp only [if_pos hsrc]
      simp
    · exact ih _ x hx hsrc

theorem redeem_all_calls_subset (scanResult : List ScanItem) (d : Bool)
    (redeemTx : String → Except String String) (storage0 : List PositionEntry)
    (now : String) (x : ScanItem)
    (hx : x ∈ (redeem_all scanResult d redeemTx storage0 now).redeemCalls) :
    x ∈ scanResult.filter (fun r => r.is_winner) := by
  unfold redeem_all at hx
  by_cases h0 : scanResult.isEmpty
  · rw [if_pos h0] at hx
    simp at hx
  · rw [if_neg h0] at hx
    by_cases hw : (scanResult.filter (fun r => r.is_winner)).isEmpty
    · rw [if_pos hw] at hx
      rw [foldl_loserStepNoWinners] at hx
      simp at hx
    · rw [if_neg hw] at hx
      cases d
      · simp only [Bool.false_eq_true, if_false] at hx
        rw [foldl_loserStepAfterWinners_calls] at hx
        rcases foldl_winnerStep_calls redeemTx now _ _ x hx with h | h
        · simp at h
        · exact h
      · simp only [if_pos] at hx
        simp at hx

theorem scan_pid_sublist (stored : List PositionEntry)
    (getMarket : String → Except String Market) (getBalance : String → Except String ℕ)
    (isCondResolved : String → Bool) :
    ((scan_redeemable stored getMarket getBalance isCondResolved).map
        (fun x => x.position_id)).Sublist
      (stored.map (fun p => p.position_id)) := by
  have h1 : ∀ (l : List PositionEntry),
      ((l.filterMap (processPos getMarket getBalance isCondResolved)).map
          (fun x => x.position_id)).Sublist (l.map (fun p => p.position_id)) := by
    intro l
    induction l with
    | nil => simp
    | cons p l ih =>
      rw [List.filterMap_cons]
      cases h : processPos getMarket getBalance isCondResolved p with
      | none =>
        rw [List.map_cons]
        exact ih.trans (List.sublist_cons_self _ _)
      | some x =>
        rw [List.map_cons, List.map_cons,
          processPos_pid getMarket getBalance isCondResolved p x h]
        exact ih.cons₂ _
  exact (h1 _).trans ((List.filter_sublist stored).map _)

theorem scan_unique (stored : List PositionEntry)
    (getMarket : String → Except String Market) (getBalance : String → Except String ℕ)
    (isCondResolved : String → Bool) (pos : PositionEntry) (ourIt : ScanItem)
    (hnodup : (stored.map (fun p => p.position_id)).Nodup) (hmem : pos ∈ stored)
    (hproc : processPos getMarket getBalance isCondResolved pos = some ourIt)
    (x : ScanItem) (hx : x ∈ scan_redeemable stored getMarket getBalance isCondResolved)
    (hpid : x.position_id = pos.position_id) : x = ourIt := by
  obtain ⟨q, hq, hqx⟩ := List.mem_filterMap.mp hx
  have hq' : q ∈ stored := (List.mem_filter.mp hq).1
  have hqpid : q.position_id = pos.position_id := by
    rw [← processPos_pid getMarket getBalance isCondResolved q x hqx]
    exact hpid
  have hqp : q = pos := List.inj_on_of_nodup_map hnodup hq' hmem hqpid
  subst hqp
  rw [hproc] at hqx
  exact (Option.some_inj.mp hqx).symm

theorem foldl_loserAfter_findRec_resolved (ls : List ScanItem) (ourIt : ScanItem)
    (hmem : ourIt ∈ ls) (hsrc : ourIt.source ≠ "data_api")
    (hnd : (ls.map (fun x => x.position_id)).Nodup) (st : RedeemState) :
    findRec ((ls.foldl loserStepAfterWinners st).storage) ourIt.position_id =
      (findRec st.storage ourIt.position_id).map
        (fun q => { q with status := "resolved" }) := by
  obtain ⟨s, t, rfl⟩ := List.append_of_mem hmem
  rw [show (s ++ ourIt :: t).map (fun x => x.position_id) =
      s.map (fun x => x.position_id) ++ ourIt.position_id ::
        t.map (fun x => x.position_id) from by simp] at hnd
  have hnotin := (List.nodup_cons.mp (List.nodup_middle.mp hnd)).1
  have hs_ne : ∀ x ∈ s, x.position_id ≠ ourIt.position_id := by
    intro x hx he
    exact hnotin (List.mem_append_left _ (he ▸ List.mem_map.mpr ⟨x, hx, rfl⟩))
  have ht_ne : ∀ x ∈ t, x.position_id ≠ ourIt.position_id := by
    intro x hx he
    exact hnotin (List.mem_append_right _ (he ▸ List.mem_map.mpr ⟨x, hx, rfl⟩))
  rw [List.foldl_append, List.foldl_cons]
  rw [foldl_loserStepAfterWinners_findRec_ne t _ _ ht_ne]
  have hstep : findRec ((loserStepAfterWinners (List.foldl loserStepAfterWinners st s)
        ourIt).storage) ourIt.position_id =
      (findRec ((List.foldl loserStepAfterWinners st s).storage) ourIt.position_id).map
        (fun q => { q with status := "resolved" }) := by
    unfold loserStepAfterWinners
    rw [if_pos hsrc]
    exact findRec_applyStatus_eq _ _ _
  rw [hstep, foldl_loserStepAfterWinners_findRec_ne s _ _ hs_ne]

theorem foldl_loserNoWin_findRec_resolved (ls : List ScanItem) (ourIt : ScanItem)
    (hmem : ourIt ∈ ls)
    (hnd : (ls.map (fun x => x.position_id)).Nodup) (st : RedeemState) :
    findRec ((ls.foldl loserStepNoWinners st).storage) ourIt.position_id =
      (findRec st.storage ourIt.position_id).map
        (fun q => { q with status := "resolved" }) := by
  obtain ⟨s, t, rfl⟩ := List.append_of_mem hmem
  rw [show (s ++ ourIt :: t).map (fun x => x.position_id) =
      s.map (fun x => x.position_id) ++ ourIt.position_id ::
        t.map (fun x => x.position_id) from by simp] at hnd
  have hnotin := (List.nodup_cons.mp (List.nodup_middle.mp hnd)).1
  have hs_ne : ∀ x ∈ s, x.position_id ≠ ourIt.position_id := by
    intro x hx he
    exact hnotin (List.mem_append_left _ (he ▸ List.mem_map.mpr ⟨x, hx, rfl⟩))
  have ht_ne : ∀ x ∈ t, x.position_id ≠ ourIt.position_id := by
    intro x hx he
    exact hnotin (List.mem_append_right _ (he ▸ List.mem_map.mpr ⟨x, hx, rfl⟩))
  rw [List.foldl_append, List.foldl_cons]
  rw [foldl_loserStepNoWinners_findRec_ne t _ _ ht_ne]
  have hstep : findRec ((loserStepNoWinners (List.foldl loserStepNoWinners st s)
        ourIt).storage) ourIt.position_id =
      (findRec ((List.foldl loserStepNoWinners st s).storage) ourIt.position_id).map
        (fun q => { q with status := "resolved" }) :=
    findRec_applyStatus_eq _ _ _
  rw [hstep, foldl_loserStepNoWinners_findRec_ne s _ _ hs_ne]

/-- C4: a locally stored open position whose market is resolved with an
outcome different from the held side is classified by `scan_redeemable` as
a loser with `redeemable_usd = 0`; feeding that scan to `redeem_all`
(execute path, `dry_run=false`) never invokes the redeem operation for it
(every `redeem_position` call is triggered by a winner item), records an
`update_status(..., "resolved")` call for it, and leaves its record in the
store with status "resolved" — all without any on-chain transaction for
this position.  Position ids are assumed pairwise distinct in the store,
per the data-model invariant. -/
theorem scan_and_redeem_loser_resolved (stored : List PositionEntry)
    (getMarket : String → Except String Market) (getBalance : String → Except String ℕ)
    (isCondResolved : String → Bool) (redeemTx : String → Except String String)
    (now : String) (pos : PositionEntry) (market : Market)
    (hnodup : (stored.map (fun p => p.position_id)).Nodup)
    (hmem : pos ∈ stored) (hopen : pos.status = "open")
    (hm : getMarket pos.market_id = .ok market) (hres : market.resolved = true)
    (hdiff : pyUpper (market.outcome.getD "") ≠ pyUpper pos.position) :
    loserItem pos (pyUpper (market.outcome.getD "")) ∈
      scan_redeemable stored getMarket getBalance isCondResolved ∧
    (loserItem pos (pyUpper (market.outcome.getD ""))).is_winner = false ∧
    (loserItem pos (pyUpper (market.outcome.getD ""))).redeemable_usd = QF.ofInt 0 ∧
    loserItem pos (pyUpper (market.outcome.getD "")) ∉
      (redeem_all (scan_redeemable stored getMarket getBalance isCondResolved) false
        redeemTx stored now).redeemCalls ∧
    (pos.position_id, "resolved") ∈
      (redeem_all (scan_redeemable stored getMarket getBalance isCondResolved) false
        redeemTx stored now).statusUpdates ∧
    findRec (redeem_all (scan_redeemable stored getMarket getBalance isCondResolved) false
        redeemTx stored now).storage pos.position_id =
      some { pos with status := "resolved" } := by
  have hproc := processPos_loser getMarket getBalance isCondResolved pos market hm hres hdiff
  have hscan : loserItem pos (pyUpper (market.outcome.getD "")) ∈
      scan_redeemable stored getMarket getBalance isCondResolved :=
    List.mem_filterMap.mpr ⟨pos, List.mem_filter.mpr ⟨hmem, by simp [hopen]⟩, hproc⟩
  have hne' : ¬ ((scan_redeemable stored getMarket getBalance isCondResolved).isEmpty = true) := by
    simpa [List.isEmpty_iff] using List.ne_nil_of_mem hscan
  have hLlosers : loserItem pos (pyUpper (market.outcome.getD "")) ∈
      (scan_redeemable stored getMarket getBalance isCondResolved).filter
        (fun r => !r.is_winner) :=
    List.mem_filter.mpr ⟨hscan, by simp [loserItem]⟩
  have hlosers_nd : (((scan_redeemable stored getMarket getBalance isCondResolved).filter
      (fun r => !r.is_winner)).map (fun x => x.position_id)).Nodup :=
    (hnodup.sublist (scan_pid_sublist stored getMarket getBalance isCondResolved)).sublist
      ((List.filter_sublist _).map _)
  have hwin_ne : ∀ w ∈ (scan_redeemable stored getMarket getBalance
      isCondResolved).filter (fun r => r.is_winner),
      w.position_id ≠ pos.position_id := by
    intro w hw he
    have hw2 := (List.mem_filter.mp hw).2
    have hwL : w = loserItem pos (pyUpper (market.outcome.getD "")) :=
      scan_unique stored getMarket getBalance isCondResolved pos _ hnodup hmem hproc w
        (List.mem_filter.mp hw).1 he
    rw [hwL] at hw2
    simp [loserItem] at hw2
  refine ⟨hscan, rfl, rfl, ?_, ?_, ?_⟩
  · intro hcall
    have h := redeem_all_calls_subset _ false redeemTx stored now _ hcall
    have h2 := (List.mem_filter.mp h).2
    simp [loserItem] at h2
  · by_cases hw : ((scan_redeemable stored getMarket getBalance isCondResolved).filter
        (fun r => r.is_winner)).isEmpty
    · have hred : redeem_all (scan_redeemable stored getMarket getBalance isCondResolved)
          false redeemTx stored now =
          ((scan_redeemable stored getMarket getBalance isCondResolved).filter
            (fun r => !r.is_winner)).foldl loserStepNoWinners ⟨[], stored, [], []⟩ := by
        simp only [redeem_all, if_neg hne', if_pos hw]
      rw [hred, foldl_loserStepNoWinners]
      show _ ∈ [] ++ _
      rw [List.nil_append]
      exact List.mem_map.mpr ⟨_, hLlosers, rfl⟩
    · have hred : redeem_all (scan_redeemable stored getMarket getBalance isCondResolved)
          false redeemTx stored now =
          ((scan_redeemable stored getMarket getBalance isCondResolved).filter
            (fun r => !r.is_winner)).foldl loserStepAfterWinners
            (((scan_redeemable stored getMarket getBalance isCondResolved).filter
              (fun r => r.is_winner)).foldl (winnerStep redeemTx now)
              ⟨[], stored, [], []⟩) := by
        simp only [redeem_all, if_neg hne', if_neg hw, Bool.false_eq_true, if_false]
      rw [hred]
      exact foldl_loserStepAfterWinners_ups_mem _ _ _ hLlosers (by simp [loserItem])
  · by_cases hw : ((scan_redeemable stored getMarket getBalance isCondResolved).filter
        (fun r => r.is_winner)).isEmpty
    · have hred : redeem_all (scan_redeemable stored getMarket getBalance isCondResolved)
          false redeemTx stored now =
          ((scan_redeemable stored getMarket getBalance isCondResolved).filter
            (fun r => !r.is_winner)).foldl loserStepNoWinners ⟨[], stored, [], []⟩ := by
        simp only [redeem_all, if_neg hne', if_pos hw]
      rw [hred]
      have h6 := foldl_loserNoWin_findRec_resolved _ _ hLlosers hlosers_nd
        ⟨[], stored, [], []⟩
      simp only [loserItem] at h6
      rw [h6]
      show (findRec stored pos.position_id).map _ = _
      rw [findRec_mem_nodup stored pos hnodup hmem]
      rfl
    · have hred : redeem_all (scan_redeemable stored getMarket getBalance isCondResolved)
          false redeemTx stored now =
          ((scan_redeemable stored getMarket getBalance isCondResolved).filter
            (fun r => !r.is_winner)).foldl loserStepAfterWinners
            (((scan_redeemable stored getMarket getBalance isCondResolved).filter
              (fun r => r.is_winner)).foldl (winnerStep redeemTx now)
              ⟨[], stored, [], []⟩) := by
        simp only [redeem_all, if_neg hne', if_neg hw, Bool.false_eq_true, if_false]
      rw [hred]
      have h6 := foldl_loserAfter_findRec_resolved _ _ hLlosers (by simp [loserItem])
        hlosers_nd (((scan_redeemable stored getMarket getBalance isCondResolved).filter
          (fun r => r.is_winner)).foldl (winnerStep redeemTx now) ⟨[], stored, [], []⟩)
      simp only [loserItem] at h6
      rw [h6]
      rw [foldl_winnerStep_findRec redeemTx now _ _ pos.position_id hwin_ne]
      show (findRec stored pos.position_id).map _ = _
      rw [findRec_mem_nodup stored pos hnodup hmem]
      rfl

/-- Witness for C4: one stored open YES position, market resolved NO;
executing the redeem saga marks it resolved with no redeem call. -/
theorem scan_and_redeem_loser_resolved_witness :
    (samplePos.position_id, "resolved") ∈
      (redeem_all (scan_redeemable [samplePos] (fun _ => .ok sampleMarketNo)
          (fun _ => .ok 0) (fun _ => false)) false (fun _ => .ok "0xTX") [samplePos]
        "t0").statusUpdates ∧
    findRec (redeem_all (scan_redeemable [samplePos] (fun _ => .ok sampleMarketNo)
          (fun _ => .ok 0) (fun _ => false)) false (fun _ => .ok "0xTX") [samplePos]
        "t0").storage samplePos.position_id =
      some { samplePos with status := "resolved" } := by
  have h := scan_and_redeem_loser_resolved [samplePos] (fun _ => .ok sampleMarketNo)
    (fun _ => .ok 0) (fun _ => false) (fun _ => .ok "0xTX") "t0" samplePos sampleMarketNo
    (by decide) (by decide) (by decide) (by decide) (by decide) (by decide)
  exact ⟨h.2.2.2.2.1, h.2.2.2.2.2⟩

end Polyclaw
